import Mathlib

/-!
Verification of the desktop-widgets process supervisor and monitor layer.

The development shallowly embeds the relevant source:
* `src/lib/daemon-manager.ts` (the `DaemonManager` Effect service),
* the network monitor module (`parseMonitorLine`, `readWifiSignal`,
  `createNetworkMonitor`),
* the audio monitor module (`parseSubscribeLine`, `createAudioMonitor`).

Strings are modelled as `List Char`.  The JavaScript regular expressions used
by the line parsers are straight-line alternations of literal pieces and the
character classes `\w`, `[\w-]`, `\d`, `\s`; because consecutive pieces always
draw from disjoint character classes, greedy matching coincides with
maximal-munch `takeWhile`/`dropWhile` scanning, which is how the matchers are
written below.
-/

/-- JavaScript `\w`: `[A-Za-z0-9_]`. -/
def isWordChar (c : Char) : Bool :=
  decide ((65 ≤ c.toNat ∧ c.toNat ≤ 90) ∨ (97 ≤ c.toNat ∧ c.toNat ≤ 122) ∨
    (48 ≤ c.toNat ∧ c.toNat ≤ 57) ∨ c.toNat = 95)

/-- JavaScript `\d`: `[0-9]`. -/
def isDigitChar (c : Char) : Bool :=
  decide (48 ≤ c.toNat ∧ c.toNat ≤ 57)

/-- JavaScript `[\w-]`: word characters and the hyphen. -/
def isWordDashChar (c : Char) : Bool :=
  isWordChar c || decide (c.toNat = 45)

/-- JavaScript `\s` restricted to the ASCII whitespace characters
(space, tab, line feed, vertical tab, form feed, carriage return). -/
def isJsSpace (c : Char) : Bool :=
  decide (c.toNat = 32 ∨ c.toNat = 9 ∨ c.toNat = 10 ∨ c.toNat = 11 ∨
    c.toNat = 12 ∨ c.toNat = 13)

/-- The single-quote character `'` (code 39). -/
def quoteC : Char := Char.ofNat 39

/-- Line feed. -/
def nlC : Char := Char.ofNat 10

/-- A character the JavaScript `.` metacharacter refuses: the line
terminators LF, CR, U+2028 and U+2029. -/
def isLineTerm (c : Char) : Bool :=
  decide (c.toNat = 10 ∨ c.toNat = 13 ∨ c.toNat = 8232 ∨ c.toNat = 8233)

/-- Model of `parseInt(s, 10)` on a digit string (exact integer semantics; the
captured groups in scope are short enough that the JavaScript float
representation is exact). -/
def digitsToNat (ds : List Char) : Nat :=
  ds.foldl (fun n c => n * 10 + (c.toNat - 48)) 0

/-- JavaScript `text.split("\n")`: always returns at least one piece, and a
trailing newline yields a trailing empty piece. -/
def splitOnNl : List Char → List (List Char)
  | [] => [[]]
  | c :: cs =>
    match splitOnNl cs with
    | [] => [[]]
    | h :: t => if c = nlC then [] :: h :: t else (c :: h) :: t

/-! ## Network line parser (`parseMonitorLine`) -/

/-- Events produced by `parseMonitorLine`.  The source keeps the connectivity
level as the raw captured string (it is cast, not validated), so the model
keeps it raw as well. -/
inductive MonitorEvent where
  | connected (device : List Char)
  | disconnected (device : List Char)
  | connecting (device : List Char) (ssid : List Char)
  | connectivity (level : List Char)
deriving DecidableEq

/-- The literal tail of `/^(\w+): connected$/`. -/
def litConnected : List Char := ": connected".toList

/-- The literal tail of `/^(\w+): disconnected$/`. -/
def litDisconnected : List Char := ": disconnected".toList

/-- The literal middle of the using-connection pattern: the characters
`: using connection ` followed by an opening single quote. -/
def litUsing : List Char := ": using connection ".toList ++ [quoteC]

/-- The literal head of the connectivity pattern: the characters
`Connectivity is now ` followed by an opening single quote. -/
def litConnectivity : List Char := "Connectivity is now ".toList ++ [quoteC]

/-- Pattern `/^(\w+): connected$/`: maximal word-character prefix, then exactly the
literal tail. -/
def matchConnected (line : List Char) : Option (List Char) :=
  let w := line.takeWhile isWordChar
  let r := line.dropWhile isWordChar
  if w ≠ [] ∧ r = litConnected then some w else none

/-- Pattern `/^(\w+): disconnected$/`. -/
def matchDisconnected (line : List Char) : Option (List Char) :=
  let w := line.takeWhile isWordChar
  let r := line.dropWhile isWordChar
  if w ≠ [] ∧ r = litDisconnected then some w else none

/-- Pattern `/^(\w+): using connection '(.+)'$/`: after the literal middle, the
greedy `(.+)` together with the final `'$` forces the capture to be
everything up to the final character, which must be the closing quote; the
capture must be non-empty and free of line terminators. -/
def matchUsing (line : List Char) : Option (List Char × List Char) :=
  let w := line.takeWhile isWordChar
  let r := line.dropWhile isWordChar
  let t := r.drop litUsing.length
  if w ≠ [] ∧ litUsing.isPrefixOf r ∧ 2 ≤ t.length ∧ t.getLast? = some quoteC ∧
      t.dropLast.all (fun c => !isLineTerm c) then
    some (w, t.dropLast)
  else none

/-- Pattern `/^Connectivity is now '(\w+)'$/`. -/
def matchConnectivity (line : List Char) : Option (List Char) :=
  if litConnectivity.isPrefixOf line then
    let t := line.drop litConnectivity.length
    let w := t.takeWhile isWordChar
    let r := t.dropWhile isWordChar
    if w ≠ [] ∧ r = [quoteC] then some w else none
  else none

/-- Function `parseMonitorLine` from the network module: the four regular expressions
tried in source order, `null` when none matches. -/
def parseMonitorLine (line : List Char) : Option MonitorEvent :=
  match matchConnected line with
  | some d => some (MonitorEvent.connected d)
  | none =>
    match matchDisconnected line with
    | some d => some (MonitorEvent.disconnected d)
    | none =>
      match matchUsing line with
      | some ds => some (MonitorEvent.connecting ds.1 ds.2)
      | none =>
        match matchConnectivity line with
        | some l => some (MonitorEvent.connectivity l)
        | none => none

/-! Shape predicates describing exactly which lines the four code patterns
accept, phrased as decidable decompositions of the line. -/

/-- Shape `line = device ++ ": connected"` with a non-empty word-character device. -/
def connectedShapeB (line : List Char) : Bool :=
  let n := line.length
  decide (12 ≤ n) && decide (line.drop (n - 11) = litConnected) &&
    decide (line.take (n - 11) ≠ []) && (line.take (n - 11)).all isWordChar

/-- Shape `line = device ++ ": disconnected"` with a non-empty word-character
device. -/
def disconnectedShapeB (line : List Char) : Bool :=
  let n := line.length
  decide (15 ≤ n) && decide (line.drop (n - 14) = litDisconnected) &&
    decide (line.take (n - 14) ≠ []) && (line.take (n - 14)).all isWordChar

/-- Shape `line = device ++ ": using connection '" ++ ssid ++ "'"` with a non-empty
word-character device and a non-empty terminator-free ssid. -/
def connectingShapeB (line : List Char) : Bool :=
  (List.range (line.length + 1)).any fun i =>
    decide (1 ≤ i) && (line.take i).all isWordChar &&
      litUsing.isPrefixOf (line.drop i) &&
      (let t := line.drop (i + litUsing.length)
       decide (2 ≤ t.length) && decide (t.getLast? = some quoteC) &&
         t.dropLast.all (fun c => !isLineTerm c))

/-- Shape `line = "Connectivity is now '" ++ level ++ "'"` with a non-empty
word-character level. -/
def connectivityShapeB (line : List Char) : Bool :=
  litConnectivity.isPrefixOf line &&
    (let t := line.drop litConnectivity.length
     decide (2 ≤ t.length) && decide (t.getLast? = some quoteC) &&
       decide (t.dropLast ≠ []) && t.dropLast.all isWordChar)

/-! The specification's own line grammar (section 6 of the spec), used to
compare the code's parser against the spec's productions.  Modelled from the
spec: the four verbatim productions, with the connectivity level restricted
to `full`, `limited` or `none` as the spec writes it, and the device and ssid
left unconstrained (the most permissive reading). -/

/-- Modelled from the spec: `"<device>: connected"`. -/
def specProdConnected (line : List Char) : Bool :=
  litConnected.isSuffixOf line

/-- Modelled from the spec: `"<device>: disconnected"`. -/
def specProdDisconnected (line : List Char) : Bool :=
  litDisconnected.isSuffixOf line

/-- Modelled from the spec: `"<device>: using connection '<ssid>'"`. -/
def specProdUsing (line : List Char) : Bool :=
  (List.range (line.length + 1)).any fun i =>
    litUsing.isPrefixOf (line.drop i) &&
      (let t := line.drop (i + litUsing.length)
       decide (2 ≤ t.length) && decide (t.getLast? = some quoteC))

/-- Modelled from the spec: `"Connectivity is now '<full|limited|none>'"`. -/
def specProdConnectivity (line : List Char) : Bool :=
  decide (line = litConnectivity ++ "full".toList ++ [quoteC]) ||
    decide (line = litConnectivity ++ "limited".toList ++ [quoteC]) ||
    decide (line = litConnectivity ++ "none".toList ++ [quoteC])

/-- Modelled from the spec: a line matches the network-monitor grammar when
it matches one of the four productions. -/
def specNetworkGrammarB (line : List Char) : Bool :=
  specProdConnected line || specProdDisconnected line ||
    specProdUsing line || specProdConnectivity line

/-! ## Audio line parser (`parseSubscribeLine`) -/

/-- Parsed `pactl subscribe` event.  As in the source, the action and object
strings are whatever the pattern captured; they are cast, not validated. -/
structure AudioEvent where
  action : List Char
  object : List Char
  index : Nat
deriving DecidableEq

/-- The literal head of the subscribe pattern: `Event ` followed by an
opening single quote. -/
def litEvent : List Char := "Event ".toList ++ [quoteC]

/-- The literal middle: closing quote, then ` on `. -/
def litOn : List Char := [quoteC] ++ " on ".toList

/-- The literal ` #` before the index. -/
def litHash : List Char := " #".toList

/-- Function `parseSubscribeLine` from the audio module:
`/^Event '(\w+)' on ([\w-]+) #(\d+)$/`. -/
def parseSubscribeLine (line : List Char) : Option AudioEvent :=
  if litEvent.isPrefixOf line then
    let r1 := line.drop litEvent.length
    let a := r1.takeWhile isWordChar
    let r2 := r1.dropWhile isWordChar
    if a ≠ [] ∧ litOn.isPrefixOf r2 then
      let r3 := r2.drop litOn.length
      let o := r3.takeWhile isWordDashChar
      let r4 := r3.dropWhile isWordDashChar
      if o ≠ [] ∧ litHash.isPrefixOf r4 then
        let r5 := r4.drop litHash.length
        let ds := r5.takeWhile isDigitChar
        let r6 := r5.dropWhile isDigitChar
        if ds ≠ [] ∧ r6 = [] then some ⟨a, o, digitsToNat ds⟩ else none
      else none
    else none
  else none

/-! ## Fast-path wifi signal (`readWifiSignal`) -/

/-- One line of `/proc/net/wireless` against
`^\s*<device>:\s+\d+\s+(\d+)\.`: returns the captured link quality.  The
device name is matched literally (device names are word characters, so the
interpolation into the regular expression is literal). -/
def lineQuality (device line : List Char) : Option Nat :=
  let r0 := line.dropWhile isJsSpace
  if device.isPrefixOf r0 then
    match r0.drop device.length with
    | ':' :: r2 =>
      let s1 := r2.takeWhile isJsSpace
      let r3 := r2.dropWhile isJsSpace
      let d1 := r3.takeWhile isDigitChar
      let r4 := r3.dropWhile isDigitChar
      let s2 := r4.takeWhile isJsSpace
      let r5 := r4.dropWhile isJsSpace
      let q := r5.takeWhile isDigitChar
      let r6 := r5.dropWhile isDigitChar
      if s1 ≠ [] ∧ d1 ≠ [] ∧ s2 ≠ [] ∧ q ≠ [] ∧ r6.head? = some '.' then
        some (digitsToNat q)
      else none
    | _ => none
  else none

/-- Value of `Math.round(q / 70 * 100)` computed exactly: for `0 ≤ q` this is
`⌊q * 100 / 70 + 1 / 2⌋ = (200 * q + 70) / 140` (never a tie, see
`roundPct_eq_round`). -/
def roundPct (q : Nat) : Nat :=
  (200 * q + 70) / 140

/-- Function `readWifiSignal` on a given file text: the multiline-flag regular
expression finds the first matching line; the captured quality is converted
to a percentage. -/
def readWifiSignal (device text : List Char) : Option Nat :=
  ((splitOnNl text).findSome? (lineQuality device)).map roundPct

/-! ## Daemon manager (`src/lib/daemon-manager.ts`) -/

/-- The daemon run state held in the `SubscriptionRef`. -/
inductive DaemonState where
  | running
  | stopped
deriving DecidableEq

/-- A registry entry.  `stateCell` is the identity of the daemon's
`SubscriptionRef` (cell contents live in `ManagerState.cells`); `fiber` is
the identity of the supervising fiber, when one was recorded. -/
structure DaemonEntry where
  name : String
  command : List String
  stateCell : Nat
  fiber : Option Nat
deriving DecidableEq

/-- The tagged errors of the daemon manager. -/
inductive DaemonError where
  | notFound (daemonName : String)
  | died (daemon : DaemonEntry) (exitCode : Int) (message : String)
deriving DecidableEq

/-- The observable outcome of a spawned child process: its exit code and the
chunks of its decoded stderr stream. -/
structure ChildProcess where
  exitCode : Int
  stderrChunks : List String
deriving DecidableEq

/-- The state owned by the `DaemonManager` service: the `MutableHashMap`
registry, the `SubscriptionRef` store, fresh-identity counters, the fibers
forked into the service scope (each supervising the entry captured at fork
time), and the fibers that have been interrupted. -/
structure ManagerState where
  daemons : List (String × DaemonEntry)
  cells : Nat → DaemonState
  nextCell : Nat
  fibers : List (Nat × DaemonEntry)
  nextFiber : Nat
  interrupted : List Nat

/-- The state of a freshly constructed manager. -/
def initManager : ManagerState :=
  ⟨[], fun _ => DaemonState.stopped, 0, [], 0, []⟩

/-- Model of `MutableHashMap.set`: replace the binding in place when the key is
present, append otherwise. -/
def insertD (m : List (String × DaemonEntry)) (k : String) (v : DaemonEntry) :
    List (String × DaemonEntry) :=
  match m with
  | [] => [(k, v)]
  | (k', v') :: t => if k' = k then (k, v) :: t else (k', v') :: insertD t k v

/-- Operation `set`: upsert a daemon definition.  A new name gets a fresh cell holding
`stopped` and no fiber; a known name keeps its cell.  The replacement record
is built by spreading `{name, command}` and adding only `state`, so the
`fiber` field of the new record is absent. -/
def setDaemon (st : ManagerState) (name : String) (command : List String) :
    ManagerState :=
  match st.daemons.lookup name with
  | none =>
    let cid := st.nextCell
    { st with
      daemons := insertD st.daemons name ⟨name, command, cid, none⟩
      cells := fun n => if n = cid then DaemonState.stopped else st.cells n
      nextCell := cid + 1 }
  | some ex =>
    { st with daemons := insertD st.daemons name ⟨name, command, ex.stateCell, none⟩ }

/-- The supervising task forked by `start`, as a function of the child's
observable behaviour: wait for the exit code, fold the stderr stream into a
string, then fail with `DaemonDiedError` — there is no success path. -/
def spawnDaemon (d : DaemonEntry) (child : ChildProcess) : Except DaemonError Unit :=
  let exitCode := child.exitCode
  let message := child.stderrChunks.foldl (fun acc chunk => acc ++ chunk) ""
  Except.error (DaemonError.died d exitCode message)

/-- Operation `start`: fail on an unknown name; return immediately when the cell reads
`running`; otherwise fork the supervising fiber over the looked-up entry, set
the cell to `running`, and record the fiber on the entry. -/
def startDaemon (st : ManagerState) (name : String) :
    Except DaemonError Unit × ManagerState :=
  match st.daemons.lookup name with
  | none => (Except.error (DaemonError.notFound name), st)
  | some d =>
    if st.cells d.stateCell = DaemonState.running then (Except.ok (), st)
    else
      let fid := st.nextFiber
      (Except.ok (),
        { st with
          fibers := (fid, d) :: st.fibers
          nextFiber := fid + 1
          cells := fun n => if n = d.stateCell then DaemonState.running else st.cells n
          daemons := insertD st.daemons name { d with fiber := some fid } })

/-- Operation `stop`: fail on an unknown name; when a fiber is recorded, interrupt it
and set the cell to `stopped`; otherwise do nothing. -/
def stopDaemon (st : ManagerState) (name : String) :
    Except DaemonError Unit × ManagerState :=
  match st.daemons.lookup name with
  | none => (Except.error (DaemonError.notFound name), st)
  | some d =>
    match d.fiber with
    | some f =>
      (Except.ok (),
        { st with
          interrupted := f :: st.interrupted
          cells := fun n => if n = d.stateCell then DaemonState.stopped else st.cells n })
    | none => (Except.ok (), st)

/-- Operation `list`: the registry values. -/
def listDaemons (st : ManagerState) : List DaemonEntry :=
  st.daemons.map (fun kv => kv.2)

/-! ## Monitor stop-flag discipline (`createNetworkMonitor`,
`createAudioMonitor`)

Each monitor is modelled as a step function over the events at which the
source consults the `stopped` flag: arrival of a stdout chunk (the
`for await` body), the child's `onExit` observer, the firing of a scheduled
restart (`startMonitor`), a read-loop failure (the `catch`), a poll-timer
tick, and an invocation of the returned stop function.  A handler runs to
completion in the model, emitting the externally visible actions it
performs. -/

/-- Externally visible actions of the network monitor. -/
inductive NetMonAction where
  | spawnChild
  | scheduleRestart
  | killChild
  | clearPollTimer
  | queryActiveConnection
  | callOnDisconnect
  | callOnError
  | readSignal (device : List Char)
deriving DecidableEq

/-- Private state of one network monitor instance. -/
structure NetMonState where
  stopped : Bool
  buffer : List Char
  currentDevice : Option (List Char)
deriving DecidableEq

/-- The occurrences a network monitor instance reacts to. -/
inductive NetMonEvent where
  | chunkArrive (chunk : List Char)
  | childExited
  | restartTimerFire
  | readLoopError
  | pollTick
  | stopCall
deriving DecidableEq

/-- The per-line dispatch of the network read loop: a `connected` event
remembers the device and issues the active-connection query (whose result
drives `onConnect`/`onError`); a `disconnected` event forgets the device and
calls `onDisconnect`; `connecting` and `connectivity` events have no
branch. -/
def netProcessLines (dev : Option (List Char)) :
    List (List Char) → Option (List Char) × List NetMonAction
  | [] => (dev, [])
  | l :: ls =>
    match parseMonitorLine l with
    | some (MonitorEvent.connected d) =>
      let r := netProcessLines (some d) ls
      (r.1, NetMonAction.queryActiveConnection :: r.2)
    | some (MonitorEvent.disconnected _) =>
      let r := netProcessLines none ls
      (r.1, NetMonAction.callOnDisconnect :: r.2)
    | _ => netProcessLines dev ls

/-- One step of the network monitor. -/
def netStep (st : NetMonState) (ev : NetMonEvent) :
    NetMonState × List NetMonAction :=
  match ev with
  | NetMonEvent.chunkArrive chunk =>
    if st.stopped then (st, [])
    else
      let pieces := splitOnNl (st.buffer ++ chunk)
      let complete := pieces.dropLast
      let rest := pieces.getLast?.getD []
      let r := netProcessLines st.currentDevice complete
      ({ st with buffer := rest, currentDevice := r.1 }, r.2)
  | NetMonEvent.childExited =>
    if st.stopped then (st, []) else (st, [NetMonAction.scheduleRestart])
  | NetMonEvent.restartTimerFire =>
    if st.stopped then (st, []) else (st, [NetMonAction.spawnChild])
  | NetMonEvent.readLoopError =>
    if st.stopped then (st, []) else (st, [NetMonAction.callOnError])
  | NetMonEvent.pollTick =>
    if st.stopped then (st, [])
    else
      match st.currentDevice with
      | some dev => (st, [NetMonAction.readSignal dev])
      | none => (st, [])
  | NetMonEvent.stopCall =>
    ({ st with stopped := true },
      [NetMonAction.killChild, NetMonAction.clearPollTimer])

/-- Run the network monitor over an event trace, collecting actions. -/
def netRun (st : NetMonState) : List NetMonEvent → NetMonState × List NetMonAction
  | [] => (st, [])
  | e :: es =>
    let r1 := netStep st e
    let r2 := netRun r1.1 es
    (r2.1, r1.2 ++ r2.2)

/-- Externally visible actions of the audio monitor. -/
inductive AudioMonAction where
  | spawnChild
  | scheduleRestart
  | killChild
  | queryDefaultSinkVolume
  | queryDefaultSinkName
  | callOnError
deriving DecidableEq

/-- Private state of one audio monitor instance. -/
structure AudioMonState where
  stopped : Bool
  buffer : List Char
deriving DecidableEq

/-- The occurrences an audio monitor instance reacts to. -/
inductive AudioMonEvent where
  | chunkArrive (chunk : List Char)
  | childExited
  | restartTimerFire
  | readLoopError
  | stopCall
deriving DecidableEq

/-- The per-line dispatch of the audio read loop: on `change`/`sink` query
the volume (driving `onVolumeChange`); on `change`/`server` query the
default sink name, then the volume, in that order; all other combinations
are ignored. -/
def audioLineActions (line : List Char) : List AudioMonAction :=
  match parseSubscribeLine line with
  | some ev =>
    if ev.action = "change".toList then
      if ev.object = "sink".toList then [AudioMonAction.queryDefaultSinkVolume]
      else if ev.object = "server".toList then
        [AudioMonAction.queryDefaultSinkName, AudioMonAction.queryDefaultSinkVolume]
      else []
    else []
  | none => []

/-- One step of the audio monitor. -/
def audioStep (st : AudioMonState) (ev : AudioMonEvent) :
    AudioMonState × List AudioMonAction :=
  match ev with
  | AudioMonEvent.chunkArrive chunk =>
    if st.stopped then (st, [])
    else
      let pieces := splitOnNl (st.buffer ++ chunk)
      let complete := pieces.dropLast
      let rest := pieces.getLast?.getD []
      ({ st with buffer := rest }, (complete.map audioLineActions).flatten)
  | AudioMonEvent.childExited =>
    if st.stopped then (st, []) else (st, [AudioMonAction.scheduleRestart])
  | AudioMonEvent.restartTimerFire =>
    if st.stopped then (st, []) else (st, [AudioMonAction.spawnChild])
  | AudioMonEvent.readLoopError =>
    if st.stopped then (st, []) else (st, [AudioMonAction.callOnError])
  | AudioMonEvent.stopCall =>
    ({ st with stopped := true }, [AudioMonAction.killChild])

/-- Run the audio monitor over an event trace, collecting actions. -/
def audioRun (st : AudioMonState) : List AudioMonEvent → AudioMonState × List AudioMonAction
  | [] => (st, [])
  | e :: es =>
    let r1 := audioStep st e
    let r2 := audioRun r1.1 es
    (r2.1, r1.2 ++ r2.2)

/-! Concrete fixtures used by the witnesses and counterexamples below. -/

/-- A manager with daemon `a` registered and never started. -/
def c1State1 : ManagerState := setDaemon initManager "a" ["sleep", "10"]
/-- The same manager after `start "a"`. -/
def c1State2 : ManagerState := (startDaemon c1State1 "a").2
/-- Fixture: `wlan0: using connection 'My Network 5G'`. -/
def exUsingLine : List Char :=
  "wlan0: using connection ".toList ++ [quoteC] ++ "My Network 5G".toList ++ [quoteC]
/-- Fixture: `Connectivity is now 'limited'`. -/
def exConnectivityLine : List Char :=
  "Connectivity is now ".toList ++ [quoteC] ++ "limited".toList ++ [quoteC]
/-- Fixture: `Connectivity is now 'sometimes'`. -/
def c7Line : List Char :=
  "Connectivity is now ".toList ++ [quoteC] ++ "sometimes".toList ++ [quoteC]
/-- Fixture: `Event 'change' on sink #56`. -/
def c8ChangeSinkLine : List Char :=
  "Event ".toList ++ [quoteC] ++ "change".toList ++ [quoteC] ++ " on sink #56".toList
/-- Fixture: `Event 'change' on sink`. -/
def c8MalformedLine : List Char :=
  "Event ".toList ++ [quoteC] ++ "change".toList ++ [quoteC] ++ " on sink".toList
/-- Fixture: `Event 'foo' on gadget #3`. -/
def c8CxLine : List Char :=
  "Event ".toList ++ [quoteC] ++ "foo".toList ++ [quoteC] ++ " on gadget #3".toList
/-- Fixture: a `/proc/net/wireless` row with link quality 32. -/
def c9Text : List Char := " wlan0: 0000   32.  -78.  -256".toList
/-- Fixture: the device string `w: using connection 'x`. -/
def c10Device : List Char := "w: using connection ".toList ++ [quoteC] ++ "x".toList


/-! ## Helper lemmas on `takeWhile`, `dropWhile` and `getLast?` -/

theorem takeWhile_append_of_all {α : Type} {p : α → Bool} {xs ys : List α}
    (h : ∀ c ∈ xs, p c = true) :
    (xs ++ ys).takeWhile p = xs ++ ys.takeWhile p := by
  induction xs with
  | nil => simp
  | cons a t ih =>
    have ha : p a = true := h a (List.mem_cons_self a t)
    simp only [List.cons_append, List.takeWhile_cons_of_pos ha, List.cons.injEq, true_and]
    exact ih fun c hc => h c (List.mem_cons_of_mem a hc)

theorem dropWhile_append_of_all {α : Type} {p : α → Bool} {xs ys : List α}
    (h : ∀ c ∈ xs, p c = true) :
    (xs ++ ys).dropWhile p = ys.dropWhile p := by
  induction xs with
  | nil => simp
  | cons a t ih =>
    have ha : p a = true := h a (List.mem_cons_self a t)
    simp only [List.cons_append, List.dropWhile_cons_of_pos ha]
    exact ih fun c hc => h c (List.mem_cons_of_mem a hc)

theorem dropWhile_ne_nil_of_mem {α : Type} {p : α → Bool} {xs : List α} {c : α}
    (h : c ∈ xs) (hc : p c = false) : xs.dropWhile p ≠ [] := by
  induction xs with
  | nil => cases h
  | cons a t ih =>
    by_cases hpa : p a = true
    · rw [List.dropWhile_cons_of_pos hpa]
      rcases List.mem_cons.mp h with rfl | hmem
      · rw [hpa] at hc; cases hc
      · exact ih hmem
    · rw [List.dropWhile_cons_of_neg hpa]
      simp

theorem dropWhile_append_of_ne_nil {α : Type} {p : α → Bool} {xs ys : List α}
    (h : xs.dropWhile p ≠ []) :
    (xs ++ ys).dropWhile p = xs.dropWhile p ++ ys := by
  induction xs with
  | nil => cases h rfl
  | cons a t ih =>
    by_cases hpa : p a = true
    · rw [List.dropWhile_cons_of_pos hpa] at h
      simp only [List.cons_append, List.dropWhile_cons_of_pos hpa]
      exact ih h
    · simp only [List.cons_append, List.dropWhile_cons_of_neg hpa,
        List.dropWhile_cons_of_neg hpa]

theorem takeWhile_append_of_ne_nil {α : Type} {p : α → Bool} {xs ys : List α}
    (h : xs.dropWhile p ≠ []) :
    (xs ++ ys).takeWhile p = xs.takeWhile p := by
  induction xs with
  | nil => cases h rfl
  | cons a t ih =>
    by_cases hpa : p a = true
    · rw [List.dropWhile_cons_of_pos hpa] at h
      simp only [List.cons_append, List.takeWhile_cons_of_pos hpa, List.cons.injEq, true_and]
      exact ih h
    · simp only [List.cons_append, List.takeWhile_cons_of_neg hpa,
        List.takeWhile_cons_of_neg hpa]

theorem dropWhile_head_neg {α : Type} {p : α → Bool} {xs : List α} {c : α} {ts : List α}
    (h : xs.dropWhile p = c :: ts) : p c = false ∧ c ∈ xs := by
  induction xs with
  | nil => cases h
  | cons a t ih =>
    by_cases hpa : p a = true
    · rw [List.dropWhile_cons_of_pos hpa] at h
      rcases ih h with ⟨h1, h2⟩
      exact ⟨h1, List.mem_cons_of_mem a h2⟩
    · rw [List.dropWhile_cons_of_neg hpa] at h
      injection h with h1 h2
      subst h1
      exact ⟨Bool.eq_false_iff.mpr hpa, List.mem_cons_self a t⟩

theorem takeWhile_eq_self_of_all {α : Type} {p : α → Bool} {xs : List α}
    (h : ∀ c ∈ xs, p c = true) : xs.takeWhile p = xs ∧ xs.dropWhile p = [] := by
  have h1 := @takeWhile_append_of_all α p xs [] h
  have h2 := @dropWhile_append_of_all α p xs [] h
  simp only [List.append_nil, List.takeWhile_nil, List.dropWhile_nil] at h1 h2
  exact ⟨h1, h2⟩

theorem getLast?_append_right {α : Type} {xs ys : List α} (h : ys ≠ []) :
    (xs ++ ys).getLast? = ys.getLast? := by
  rw [List.getLast?_append]
  rw [List.getLast?_eq_getLast ys h]
  rfl

theorem all_mem_takeWhile {α : Type} (p : α → Bool) (xs : List α) :
    ∀ c ∈ xs.takeWhile p, p c = true :=
  fun _ hc => List.mem_takeWhile_imp hc

theorem matchConnected_eq_some_imp {line w : List Char} (h : matchConnected line = some w) :
    w ≠ [] ∧ (∀ c ∈ w, isWordChar c = true) ∧ line = w ++ litConnected := by
  simp only [matchConnected] at h
  split at h
  case isTrue hc =>
    injection h with h1
    subst h1
    exact ⟨hc.1, all_mem_takeWhile _ _, by rw [← hc.2, List.takeWhile_append_dropWhile]⟩
  case isFalse hc => cases h

theorem matchDisconnected_eq_some_imp {line w : List Char} (h : matchDisconnected line = some w) :
    w ≠ [] ∧ (∀ c ∈ w, isWordChar c = true) ∧ line = w ++ litDisconnected := by
  simp only [matchDisconnected] at h
  split at h
  case isTrue hc =>
    injection h with h1
    subst h1
    exact ⟨hc.1, all_mem_takeWhile _ _, by rw [← hc.2, List.takeWhile_append_dropWhile]⟩
  case isFalse hc => cases h

theorem matchUsing_eq_some_imp {line w s : List Char} (h : matchUsing line = some (w, s)) :
    w ≠ [] ∧ (∀ c ∈ w, isWordChar c = true) ∧
      line = w ++ line.dropWhile isWordChar ∧
      litUsing.isPrefixOf (line.dropWhile isWordChar) = true ∧
      2 ≤ ((line.dropWhile isWordChar).drop litUsing.length).length ∧
      ((line.dropWhile isWordChar).drop litUsing.length).getLast? = some quoteC ∧
      ((line.dropWhile isWordChar).drop litUsing.length).dropLast.all
        (fun c => !isLineTerm c) = true ∧
      s = ((line.dropWhile isWordChar).drop litUsing.length).dropLast := by
  simp only [matchUsing] at h
  split at h
  case isTrue hc =>
    injection h with h1
    rw [Prod.mk.injEq] at h1
    rcases h1 with ⟨h1, h2⟩
    subst h1
    exact ⟨hc.1, all_mem_takeWhile _ _, (List.takeWhile_append_dropWhile ..).symm,
      hc.2.1, hc.2.2.1, hc.2.2.2.1, hc.2.2.2.2, h2.symm⟩
  case isFalse hc => cases h

theorem matchConnectivity_eq_some_imp {line w : List Char} (h : matchConnectivity line = some w) :
    litConnectivity.isPrefixOf line = true ∧ w ≠ [] ∧ (∀ c ∈ w, isWordChar c = true) ∧
      line.drop litConnectivity.length = w ++ [quoteC] := by
  simp only [matchConnectivity] at h
  split at h
  case isTrue hpre =>
    split at h
    case isTrue hc =>
      injection h with h1
      subst h1
      refine ⟨hpre, hc.1, all_mem_takeWhile _ _, ?_⟩
      rw [← hc.2, List.takeWhile_append_dropWhile]
    case isFalse hc => cases h
  case isFalse hpre => cases h

theorem connectedShapeB_of_match {line w : List Char} (h : matchConnected line = some w) :
    connectedShapeB line = true := by
  rcases matchConnected_eq_some_imp h with ⟨hne, hall, hline⟩
  subst hline
  have hlen : (w ++ litConnected).length = w.length + 11 := by
    simp [litConnected]
  have hw1 : 1 ≤ w.length := List.length_pos.mpr hne
  simp only [connectedShapeB, hlen, Nat.add_sub_cancel, Bool.and_eq_true, decide_eq_true_eq]
  refine ⟨⟨⟨by omega, ?_⟩, ?_⟩, ?_⟩
  · exact List.drop_left' rfl
  · rw [List.take_left' rfl]; exact hne
  · rw [List.take_left' rfl]; exact List.all_eq_true.mpr hall

theorem disconnectedShapeB_of_match {line w : List Char} (h : matchDisconnected line = some w) :
    disconnectedShapeB line = true := by
  rcases matchDisconnected_eq_some_imp h with ⟨hne, hall, hline⟩
  subst hline
  have hlen : (w ++ litDisconnected).length = w.length + 14 := by
    simp [litDisconnected]
  have hw1 : 1 ≤ w.length := List.length_pos.mpr hne
  simp only [disconnectedShapeB, hlen, Nat.add_sub_cancel, Bool.and_eq_true, decide_eq_true_eq]
  refine ⟨⟨⟨by omega, ?_⟩, ?_⟩, ?_⟩
  · exact List.drop_left' rfl
  · rw [List.take_left' rfl]; exact hne
  · rw [List.take_left' rfl]; exact List.all_eq_true.mpr hall

theorem connectingShapeB_of_match {line w s : List Char} (h : matchUsing line = some (w, s)) :
    connectingShapeB line = true := by
  rcases matchUsing_eq_some_imp h with ⟨hne, hall, hline, hpre, hlen2, hlast, hterm, hs⟩
  have hw1 : 1 ≤ w.length := List.length_pos.mpr hne
  have hdropw : line.drop w.length = line.dropWhile isWordChar := by
    conv_lhs => rw [hline]
    exact List.drop_left' rfl
  have htakew : line.take w.length = w := by
    conv_lhs => rw [hline]
    exact List.take_left' rfl
  have hwlen : w.length < line.length + 1 := by
    conv_rhs => rw [hline]
    simp only [List.length_append]
    omega
  simp only [connectingShapeB, List.any_eq_true, List.mem_range]
  refine ⟨w.length, hwlen, ?_⟩
  have hdrop20 : line.drop (w.length + litUsing.length) =
      (line.dropWhile isWordChar).drop litUsing.length := by
    rw [← List.drop_drop, hdropw]
  simp only [Bool.and_eq_true, decide_eq_true_eq, htakew, hdropw, hdrop20, and_assoc]
  exact ⟨hw1, List.all_eq_true.mpr hall, hpre, hlen2, hlast, hterm⟩

theorem connectivityShapeB_of_match {line w : List Char} (h : matchConnectivity line = some w) :
    connectivityShapeB line = true := by
  rcases matchConnectivity_eq_some_imp h with ⟨hpre, hne, hall, hdrop⟩
  simp only [connectivityShapeB, Bool.and_eq_true, decide_eq_true_eq, hdrop, and_assoc]
  have hlen : (w ++ [quoteC]).length = w.length + 1 := by simp
  have hw1 : 1 ≤ w.length := List.length_pos.mpr hne
  refine ⟨hpre, by omega, List.getLast?_concat w, ?_, ?_⟩
  · rw [List.dropLast_concat]; exact hne
  · rw [List.dropLast_concat]; exact List.all_eq_true.mpr hall

theorem parseMonitorLine_shape {line : List Char} (h : parseMonitorLine line ≠ none) :
    connectedShapeB line = true ∨ disconnectedShapeB line = true ∨
      connectingShapeB line = true ∨ connectivityShapeB line = true := by
  unfold parseMonitorLine at h
  cases h1 : matchConnected line with
  | some d => exact Or.inl (connectedShapeB_of_match h1)
  | none =>
    rw [h1] at h
    cases h2 : matchDisconnected line with
    | some d => exact Or.inr (Or.inl (disconnectedShapeB_of_match h2))
    | none =>
      rw [h2] at h
      cases h3 : matchUsing line with
      | some ds => exact Or.inr (Or.inr (Or.inl (connectingShapeB_of_match (by rw [h3]))))
      | none =>
        rw [h3] at h
        cases h4 : matchConnectivity line with
        | some l => exact Or.inr (Or.inr (Or.inr (connectivityShapeB_of_match h4)))
        | none => rw [h4] at h; exact absurd rfl h

theorem matchConnected_eq_none_of_getLast {line : List Char} {c : Char}
    (h : line.getLast? = some c) (hc : c ≠ 'd') : matchConnected line = none := by
  simp only [matchConnected]
  rw [if_neg]
  rintro ⟨h1, h2⟩
  rw [← List.takeWhile_append_dropWhile isWordChar line, h2,
    getLast?_append_right (by decide)] at h
  have : litConnected.getLast? = some 'd' := by decide
  rw [this] at h
  injection h with h3
  exact hc h3.symm

theorem matchDisconnected_eq_none_of_getLast {line : List Char} {c : Char}
    (h : line.getLast? = some c) (hc : c ≠ 'd') : matchDisconnected line = none := by
  simp only [matchDisconnected]
  rw [if_neg]
  rintro ⟨h1, h2⟩
  rw [← List.takeWhile_append_dropWhile isWordChar line, h2,
    getLast?_append_right (by decide)] at h
  have : litDisconnected.getLast? = some 'd' := by decide
  rw [this] at h
  injection h with h3
  exact hc h3.symm

theorem matchUsing_eq_none_of_getLast {line : List Char} {c : Char}
    (h : line.getLast? = some c) (hc : c ≠ quoteC) : matchUsing line = none := by
  simp only [matchUsing]
  rw [if_neg]
  rintro ⟨h1, h2, h3, h4, h5⟩
  have htne : (line.dropWhile isWordChar).drop litUsing.length ≠ [] := by
    intro he
    rw [he] at h3
    cases h3
  rw [← List.takeWhile_append_dropWhile isWordChar line,
    ← List.take_append_drop litUsing.length (line.dropWhile isWordChar),
    ← List.append_assoc, getLast?_append_right htne, h4] at h
  injection h with h6
  exact hc h6.symm

theorem matchConnectivity_eq_none_of_getLast {line : List Char} {c : Char}
    (h : line.getLast? = some c) (hc : c ≠ quoteC) : matchConnectivity line = none := by
  simp only [matchConnectivity]
  split
  case isFalse => rfl
  case isTrue hpre =>
    rw [if_neg]
    rintro ⟨h1, h2⟩
    have htne : line.drop litConnectivity.length ≠ [] := by
      intro he
      rw [he] at h2
      simp only [List.dropWhile_nil] at h2
      cases h2
    rw [← List.take_append_drop litConnectivity.length line,
      getLast?_append_right htne,
      ← List.takeWhile_append_dropWhile isWordChar (line.drop litConnectivity.length),
      h2, List.getLast?_concat] at h
    injection h with h3
    exact hc h3.symm

theorem parse_none_of_matchers {line : List Char}
    (h1 : matchConnected line = none) (h2 : matchDisconnected line = none)
    (h3 : matchUsing line = none) (h4 : matchConnectivity line = none) :
    parseMonitorLine line = none := by
  unfold parseMonitorLine
  rw [h1, h2, h3, h4]

theorem parse_connected_none_of_nonword {d : List Char} {c0 : Char}
    (hmem : c0 ∈ d) (hnw : isWordChar c0 = false) :
    parseMonitorLine (d ++ litConnected) = none := by
  have hdw : d.dropWhile isWordChar ≠ [] := dropWhile_ne_nil_of_mem hmem hnw
  have hdwlen : 1 ≤ (d.dropWhile isWordChar).length :=
    List.length_pos.mpr hdw
  have hlast : (d ++ litConnected).getLast? = some 'd' := by
    rw [getLast?_append_right (by decide)]
    decide
  refine parse_none_of_matchers ?_ ?_ ?_ ?_
  · simp only [matchConnected]
    rw [if_neg]
    rintro ⟨h1, h2⟩
    rw [dropWhile_append_of_ne_nil hdw] at h2
    have := congrArg List.length h2
    simp only [List.length_append] at this
    have h11 : litConnected.length = 11 := by decide
    omega
  · simp only [matchDisconnected]
    rw [if_neg]
    rintro ⟨h1, h2⟩
    rw [dropWhile_append_of_ne_nil hdw] at h2
    have hlen := congrArg List.length h2
    simp only [List.length_append] at hlen
    have h11 : litConnected.length = 11 := by decide
    have h14 : litDisconnected.length = 14 := by decide
    have h3 : (d.dropWhile isWordChar).length = 3 := by omega
    rw [← List.take_append_drop 3 litDisconnected] at h2
    have htk : (litDisconnected.take 3).length = 3 := by decide
    rcases List.append_inj h2 (by omega) with ⟨h5, h6⟩
    have : litConnected ≠ litDisconnected.drop 3 := by decide
    exact this h6
  · exact matchUsing_eq_none_of_getLast hlast (by decide)
  · exact matchConnectivity_eq_none_of_getLast hlast (by decide)

theorem parse_disconnected_none_of_nonword {d : List Char} {c0 : Char}
    (hmem : c0 ∈ d) (hnw : isWordChar c0 = false) :
    parseMonitorLine (d ++ litDisconnected) = none := by
  have hdw : d.dropWhile isWordChar ≠ [] := dropWhile_ne_nil_of_mem hmem hnw
  have hdwlen : 1 ≤ (d.dropWhile isWordChar).length :=
    List.length_pos.mpr hdw
  have hlast : (d ++ litDisconnected).getLast? = some 'd' := by
    rw [getLast?_append_right (by decide)]
    decide
  refine parse_none_of_matchers ?_ ?_ ?_ ?_
  · simp only [matchConnected]
    rw [if_neg]
    rintro ⟨h1, h2⟩
    rw [dropWhile_append_of_ne_nil hdw] at h2
    have := congrArg List.length h2
    simp only [List.length_append] at this
    have h11 : litConnected.length = 11 := by decide
    have h14 : litDisconnected.length = 14 := by decide
    omega
  · simp only [matchDisconnected]
    rw [if_neg]
    rintro ⟨h1, h2⟩
    rw [dropWhile_append_of_ne_nil hdw] at h2
    have := congrArg List.length h2
    simp only [List.length_append] at this
    have h14 : litDisconnected.length = 14 := by decide
    omega
  · exact matchUsing_eq_none_of_getLast hlast (by decide)
  · exact matchConnectivity_eq_none_of_getLast hlast (by decide)

theorem parse_using_none_of_nonword_nocolon {d s : List Char} {c0 : Char}
    (hmem : c0 ∈ d) (hnw : isWordChar c0 = false) (hcol : ∀ c ∈ d, c ≠ ':') :
    parseMonitorLine (d ++ (litUsing ++ (s ++ [quoteC]))) = none := by
  have hdw : d.dropWhile isWordChar ≠ [] := dropWhile_ne_nil_of_mem hmem hnw
  have htail_ne : litUsing ++ (s ++ [quoteC]) ≠ [] := by
    intro he
    have := congrArg List.length he
    simp [litUsing] at this
  have hsq_ne : s ++ [quoteC] ≠ [] := by simp
  have hlit : litUsing ++ (s ++ [quoteC]) =
      ':' :: ((" using connection ".toList ++ [quoteC]) ++ (s ++ [quoteC])) := by
    have h0 : litUsing = ':' :: (" using connection ".toList ++ [quoteC]) := by decide
    rw [h0, List.cons_append]
  have hlast : (d ++ (litUsing ++ (s ++ [quoteC]))).getLast? = some quoteC := by
    rw [getLast?_append_right htail_ne, getLast?_append_right hsq_ne,
      List.getLast?_concat]
  refine parse_none_of_matchers ?_ ?_ ?_ ?_
  · exact matchConnected_eq_none_of_getLast hlast (by decide)
  · exact matchDisconnected_eq_none_of_getLast hlast (by decide)
  · simp only [matchUsing]
    rw [if_neg]
    rintro ⟨h1, h2, h3⟩
    rw [dropWhile_append_of_ne_nil hdw] at h2
    rcases List.exists_cons_of_ne_nil hdw with ⟨c1, ts, hc1⟩
    rcases dropWhile_head_neg hc1 with ⟨hw1, hmem1⟩
    rw [hc1] at h2
    rw [ List.isPrefixOf_iff_prefix] at h2
    rcases h2 with ⟨u, hu⟩
    have h0 : litUsing = ':' :: (" using connection ".toList ++ [quoteC]) := by decide
    rw [h0] at hu
    simp only [List.cons_append] at hu
    injection hu with hu1 hu2
    exact hcol c1 hmem1 hu1.symm
  · simp only [matchConnectivity]
    split
    case isFalse => rfl
    case isTrue hpre =>
      rw [if_neg]
      rintro ⟨h1, h2⟩
      rw [ List.isPrefixOf_iff_prefix, List.prefix_iff_eq_take] at hpre
      by_cases hdlen : d.length < litConnectivity.length
      · have hk : 1 ≤ litConnectivity.length - d.length := by omega
        rcases Nat.exists_eq_add_of_le hk with ⟨m, hm⟩
        have hcolon_mem : (':' : Char) ∈
            (d ++ (litUsing ++ (s ++ [quoteC]))).take litConnectivity.length := by
          rw [List.take_append_eq_append_take,
            List.take_of_length_le (le_of_lt hdlen), hlit, hm, Nat.add_comm 1 m,
            List.take_succ_cons]
          exact List.mem_append_right _ (List.mem_cons_self _ _)
        rw [← hpre] at hcolon_mem
        exact absurd hcolon_mem (by decide)
      · have hdrop : (d ++ (litUsing ++ (s ++ [quoteC]))).drop litConnectivity.length =
            d.drop litConnectivity.length ++ (litUsing ++ (s ++ [quoteC])) := by
          rw [List.drop_append_eq_append_drop,
            Nat.sub_eq_zero_of_le (le_of_not_lt hdlen), List.drop_zero]
        rw [hdrop] at h2
        have hcmem : (':' : Char) ∈
            d.drop litConnectivity.length ++ (litUsing ++ (s ++ [quoteC])) := by
          refine List.mem_append_right _ ?_
          rw [hlit]
          exact List.mem_cons_self _ _
        rw [← List.takeWhile_append_dropWhile isWordChar
          (d.drop litConnectivity.length ++ (litUsing ++ (s ++ [quoteC]))), h2] at hcmem
        rcases List.mem_append.mp hcmem with hin | hin
        · exact absurd (List.mem_takeWhile_imp hin) (by decide)
        · rcases List.mem_singleton.mp hin with h
          exact absurd h (by decide)

theorem parseSubscribeLine_eq_some_imp {line : List Char} {ev : AudioEvent}
    (h : parseSubscribeLine line = some ev) :
    ∃ a o ds, a ≠ [] ∧ (∀ c ∈ a, isWordChar c = true) ∧
      o ≠ [] ∧ (∀ c ∈ o, isWordDashChar c = true) ∧
      ds ≠ [] ∧ (∀ c ∈ ds, isDigitChar c = true) ∧
      line = litEvent ++ (a ++ (litOn ++ (o ++ (litHash ++ ds)))) ∧
      ev = ⟨a, o, digitsToNat ds⟩ := by
  simp only [parseSubscribeLine] at h
  split at h
  case isFalse => cases h
  case isTrue hpre =>
    split at h
    case isFalse => cases h
    case isTrue hc1 =>
      split at h
      case isFalse => cases h
      case isTrue hc2 =>
        split at h
        case isFalse => cases h
        case isTrue hc3 =>
          injection h with hev
          refine ⟨_, _, _, hc1.1, all_mem_takeWhile _ _, hc2.1, all_mem_takeWhile _ _,
            hc3.1, all_mem_takeWhile _ _, ?_, hev.symm⟩
          rw [ List.isPrefixOf_iff_prefix, List.prefix_iff_eq_take] at hpre hc1 hc2
          conv_lhs => rw [← List.take_append_drop litEvent.length line, ← hpre]
          congr 1
          conv_lhs => rw [← List.takeWhile_append_dropWhile isWordChar
            (line.drop litEvent.length)]
          congr 1
          conv_lhs => rw [← List.take_append_drop litOn.length
            ((line.drop litEvent.length).dropWhile isWordChar), ← hc1.2]
          congr 1
          conv_lhs => rw [← List.takeWhile_append_dropWhile isWordDashChar
            (((line.drop litEvent.length).dropWhile isWordChar).drop litOn.length)]
          congr 1
          conv_lhs => rw [← List.take_append_drop litHash.length
            ((((line.drop litEvent.length).dropWhile isWordChar).drop
              litOn.length).dropWhile isWordDashChar), ← hc2.2]
          congr 1
          conv_lhs => rw [← List.takeWhile_append_dropWhile isDigitChar
            (((((line.drop litEvent.length).dropWhile isWordChar).drop
              litOn.length).dropWhile isWordDashChar).drop litHash.length), hc3.2]
          rw [List.append_nil]

theorem parseSubscribeLine_complete {a o ds : List Char}
    (ha : a ≠ []) (hwa : ∀ c ∈ a, isWordChar c = true)
    (ho : o ≠ []) (hwo : ∀ c ∈ o, isWordDashChar c = true)
    (hds : ds ≠ []) (hwds : ∀ c ∈ ds, isDigitChar c = true) :
    parseSubscribeLine (litEvent ++ (a ++ (litOn ++ (o ++ (litHash ++ ds))))) =
      some ⟨a, o, digitsToNat ds⟩ := by
  have hlitOn : litOn ++ (o ++ (litHash ++ ds)) =
      quoteC :: (" on ".toList ++ (o ++ (litHash ++ ds))) := by
    have h0 : litOn = quoteC :: " on ".toList := by decide
    rw [h0, List.cons_append]
  have hlitHash : litHash ++ ds = ' ' :: (['#'] ++ ds) := by
    have h0 : litHash = ' ' :: ['#'] := by decide
    rw [h0, List.cons_append]
  have hp0 : litEvent.isPrefixOf
      (litEvent ++ (a ++ (litOn ++ (o ++ (litHash ++ ds))))) = true :=
    List.isPrefixOf_iff_prefix.mpr (List.prefix_append _ _)
  have hd0 : (litEvent ++ (a ++ (litOn ++ (o ++ (litHash ++ ds))))).drop
      litEvent.length = a ++ (litOn ++ (o ++ (litHash ++ ds))) :=
    List.drop_left _ _
  have htw1 : (a ++ (litOn ++ (o ++ (litHash ++ ds)))).takeWhile isWordChar = a := by
    rw [takeWhile_append_of_all hwa, hlitOn,
      List.takeWhile_cons_of_neg (by decide), List.append_nil]
  have hdw1 : (a ++ (litOn ++ (o ++ (litHash ++ ds)))).dropWhile isWordChar =
      litOn ++ (o ++ (litHash ++ ds)) := by
    rw [dropWhile_append_of_all hwa, hlitOn, List.dropWhile_cons_of_neg (by decide)]
  have hp1 : litOn.isPrefixOf (litOn ++ (o ++ (litHash ++ ds))) = true :=
    List.isPrefixOf_iff_prefix.mpr (List.prefix_append _ _)
  have hd1 : (litOn ++ (o ++ (litHash ++ ds))).drop litOn.length =
      o ++ (litHash ++ ds) := List.drop_left _ _
  have htw2 : (o ++ (litHash ++ ds)).takeWhile isWordDashChar = o := by
    rw [takeWhile_append_of_all hwo, hlitHash,
      List.takeWhile_cons_of_neg (by decide), List.append_nil]
  have hdw2 : (o ++ (litHash ++ ds)).dropWhile isWordDashChar = litHash ++ ds := by
    rw [dropWhile_append_of_all hwo, hlitHash, List.dropWhile_cons_of_neg (by decide)]
  have hp2 : litHash.isPrefixOf (litHash ++ ds) = true :=
    List.isPrefixOf_iff_prefix.mpr (List.prefix_append _ _)
  have hd2 : (litHash ++ ds).drop litHash.length = ds := List.drop_left _ _
  rcases takeWhile_eq_self_of_all hwds with ⟨htw3, hdw3⟩
  simp only [parseSubscribeLine, hp0, if_true, hd0, htw1, hdw1, hp1, hd1, htw2,
    hdw2, hp2, hd2, htw3, hdw3]
  rw [if_pos ⟨ha, trivial⟩, if_pos ⟨ho, trivial⟩, if_pos ⟨hds, trivial⟩]

theorem roundPct_eq_round (q : Nat) :
    (roundPct q : ℤ) = round ((q : ℚ) * 100 / 70) := by
  rw [round_eq]
  have h1 : ((q : ℚ) * 100 / 70 + 1 / 2) = ((200 * q + 70 : ℤ) : ℚ) / ((140 : ℕ) : ℚ) := by
    push_cast
    ring
  rw [h1, Rat.floor_intCast_div_natCast, roundPct]
  push_cast
  rfl

theorem lookup_insertD_self (m : List (String × DaemonEntry)) (k : String) (v : DaemonEntry) :
    (insertD m k v).lookup k = some v := by
  induction m with
  | nil => simp [insertD, List.lookup]
  | cons kv t ih =>
    rcases kv with ⟨k', v'⟩
    by_cases hk : k' = k
    · subst hk
      simp [insertD, List.lookup]
    · have hbeq : (k == k') = false := beq_eq_false_iff_ne.mpr (Ne.symm hk)
      simp [insertD, if_neg hk, List.lookup, hbeq, ih]

theorem netRun_stopped : ∀ (evs : List NetMonEvent) (st : NetMonState),
    st.stopped = true →
    (netRun st evs).1 = st ∧ ∀ a ∈ (netRun st evs).2,
      a = NetMonAction.killChild ∨ a = NetMonAction.clearPollTimer := by
  intro evs
  induction evs with
  | nil =>
    intro st h
    exact ⟨rfl, by simp [netRun]⟩
  | cons e es ih =>
    intro st h
    have hstep : (netStep st e).1 = st ∧ ∀ a ∈ (netStep st e).2,
        a = NetMonAction.killChild ∨ a = NetMonAction.clearPollTimer := by
      rcases st with ⟨b, buf, dev⟩
      simp only at h
      subst h
      cases e with
      | chunkArrive c => simp [netStep]
      | childExited => simp [netStep]
      | restartTimerFire => simp [netStep]
      | readLoopError => simp [netStep]
      | pollTick => simp [netStep]
      | stopCall =>
        refine ⟨rfl, ?_⟩
        intro a ha
        rcases List.mem_cons.mp ha with rfl | ha2
        · exact Or.inl rfl
        · rcases List.mem_singleton.mp ha2 with rfl
          exact Or.inr rfl
    rcases hstep with ⟨h1, h2⟩
    have hr := ih st h
    simp only [netRun]
    constructor
    · rw [h1]
      exact hr.1
    · intro a ha
      rw [h1] at ha
      rcases List.mem_append.mp ha with hin | hin
      · exact h2 a hin
      · exact hr.2 a hin

theorem audioRun_stopped : ∀ (evs : List AudioMonEvent) (st : AudioMonState),
    st.stopped = true →
    (audioRun st evs).1 = st ∧ ∀ a ∈ (audioRun st evs).2,
      a = AudioMonAction.killChild := by
  intro evs
  induction evs with
  | nil =>
    intro st h
    exact ⟨rfl, by simp [audioRun]⟩
  | cons e es ih =>
    intro st h
    have hstep : (audioStep st e).1 = st ∧ ∀ a ∈ (audioStep st e).2,
        a = AudioMonAction.killChild := by
      rcases st with ⟨b, buf⟩
      simp only at h
      subst h
      cases e with
      | chunkArrive c => simp [audioStep]
      | childExited => simp [audioStep]
      | restartTimerFire => simp [audioStep]
      | readLoopError => simp [audioStep]
      | stopCall =>
        refine ⟨rfl, ?_⟩
        intro a ha
        rcases List.mem_singleton.mp ha with rfl
        rfl
    rcases hstep with ⟨h1, h2⟩
    have hr := ih st h
    simp only [audioRun]
    constructor
    · rw [h1]
      exact hr.1
    · intro a ha
      rw [h1] at ha
      rcases List.mem_append.mp ha with hin | hin
      · exact h2 a hin
      · exact hr.2 a hin

/-- Claim C1, counterexample: after `set` on a daemon whose entry holds a
task handle, the handle is gone (the replacement record spreads only
`{name, command}` and re-adds `state`, so `fiber` is dropped), refuting the
claim that the handle is still present and unchanged.  The state cell is
preserved. -/
theorem c1_cx :
    (c1State2.daemons.lookup "a").map DaemonEntry.fiber = some (some 0) ∧
    (c1State2.daemons.lookup "a").map DaemonEntry.stateCell = some 0 ∧
    ((setDaemon c1State2 "a" ["sleep", "20"]).daemons.lookup "a").map
      DaemonEntry.fiber = some none ∧
    ((setDaemon c1State2 "a" ["sleep", "20"]).daemons.lookup "a").map
      DaemonEntry.stateCell = some 0 := by decide

/-- Claim C1 (amended): for every daemon name already registered, `set`
replaces the command and preserves the entry's state cell (and every cell's
contents, and the forked fibers), but it clears the entry's task handle: the
updated entry's `fiber` field is `none` even when a handle existed. -/
theorem c1_thm (st : ManagerState) (name : String) (cmd : List String)
    (d : DaemonEntry) (h : st.daemons.lookup name = some d) :
    (setDaemon st name cmd).daemons.lookup name = some ⟨name, cmd, d.stateCell, none⟩ ∧
    (setDaemon st name cmd).cells = st.cells ∧
    (setDaemon st name cmd).fibers = st.fibers ∧
    (setDaemon st name cmd).nextCell = st.nextCell := by
  have hd : setDaemon st name cmd =
      { st with daemons := insertD st.daemons name ⟨name, cmd, d.stateCell, none⟩ } := by
    simp only [setDaemon, h]
  rw [hd]
  exact ⟨lookup_insertD_self _ _ _, rfl, rfl, rfl⟩

/-- Witness for C1 at a concrete registry with a running daemon. -/
theorem c1_witness :
    (setDaemon c1State2 "a" ["sleep", "20"]).daemons.lookup "a" =
      some ⟨"a", ["sleep", "20"], 0, none⟩ :=
  (c1_thm c1State2 "a" ["sleep", "20"] ⟨"a", ["sleep", "10"], 0, some 0⟩ (by decide)).1

/-- Claim C2: when `start` is called on a registered daemon that is not
running, it succeeds and forks a supervising task over the looked-up entry;
that task never completes successfully: for every child behaviour — any exit
code, including 0 — it fails with `DaemonDiedError` carrying the daemon, the
observed exit code, and the concatenation of the child's stderr stream. -/
theorem c2_thm (st : ManagerState) (name : String) (d : DaemonEntry)
    (h : st.daemons.lookup name = some d)
    (hs : st.cells d.stateCell ≠ DaemonState.running) :
    (startDaemon st name).1 = Except.ok () ∧
    (startDaemon st name).2.fibers = (st.nextFiber, d) :: st.fibers ∧
    ∀ child : ChildProcess,
      (∀ u : Unit, spawnDaemon d child ≠ Except.ok u) ∧
      spawnDaemon d child =
        Except.error (DaemonError.died d child.exitCode (String.join child.stderrChunks)) := by
  have hd : startDaemon st name = (Except.ok (),
      { st with
        fibers := (st.nextFiber, d) :: st.fibers
        nextFiber := st.nextFiber + 1
        cells := fun n => if n = d.stateCell then DaemonState.running else st.cells n
        daemons := insertD st.daemons name { d with fiber := some st.nextFiber } }) := by
    simp only [startDaemon, h, if_neg hs]
  rw [hd]
  refine ⟨rfl, rfl, ?_⟩
  intro child
  constructor
  · intro u hu
    simp [spawnDaemon] at hu
  · rfl

/-- Witness for C2: a concrete start, and a child that exits with code 0. -/
theorem c2_witness :
    (startDaemon c1State1 "a").1 = Except.ok () ∧
    spawnDaemon ⟨"a", ["sleep", "10"], 0, none⟩ ⟨0, ["oops", " happened"]⟩ =
      Except.error (DaemonError.died ⟨"a", ["sleep", "10"], 0, none⟩ 0
        (String.join ["oops", " happened"])) :=
  ⟨(c2_thm c1State1 "a" ⟨"a", ["sleep", "10"], 0, none⟩ (by decide) (by decide)).1,
   ((c2_thm c1State1 "a" ⟨"a", ["sleep", "10"], 0, none⟩ (by decide) (by decide)).2.2
     ⟨0, ["oops", " happened"]⟩).2⟩

/-- Claim C3: for every name not in the registry, both `start` and `stop`
fail with `DaemonNotFoundError` carrying that name, and the whole manager
state is unchanged. -/
theorem c3_thm (st : ManagerState) (name : String)
    (h : st.daemons.lookup name = none) :
    startDaemon st name = (Except.error (DaemonError.notFound name), st) ∧
    stopDaemon st name = (Except.error (DaemonError.notFound name), st) := by
  constructor
  · simp only [startDaemon, h]
  · simp only [stopDaemon, h]

/-- Witness for C3 on a fresh manager and an unregistered name. -/
theorem c3_witness :
    startDaemon initManager "ghost" =
      (Except.error (DaemonError.notFound "ghost"), initManager) ∧
    stopDaemon initManager "ghost" =
      (Except.error (DaemonError.notFound "ghost"), initManager) :=
  c3_thm initManager "ghost" rfl

/-- Claim C4: for every registered daemon whose observable state cell reads
`running`, `start` is a no-op success: the result is `ok` and the manager
state — registry, fibers, counters — is exactly the state before the call,
so no child is spawned, no task is forked, and the recorded handle is the
one from the earlier start. -/
theorem c4_thm (st : ManagerState) (name : String) (d : DaemonEntry)
    (h : st.daemons.lookup name = some d)
    (hs : st.cells d.stateCell = DaemonState.running) :
    startDaemon st name = (Except.ok (), st) := by
  simp only [startDaemon, h, if_pos hs]

/-- Witness for C4: starting an already running daemon changes nothing. -/
theorem c4_witness : startDaemon c1State2 "a" = (Except.ok (), c1State2) :=
  c4_thm c1State2 "a" ⟨"a", ["sleep", "10"], 0, some 0⟩ (by decide) (by decide)

/-- Claim C5: for every registered daemon whose entry has no task handle,
`stop` succeeds as a no-op: the result is `ok` and the manager state is
exactly the state before the call, so the entry's observable state and every
other field are unchanged. -/
theorem c5_thm (st : ManagerState) (name : String) (d : DaemonEntry)
    (h : st.daemons.lookup name = some d) (hf : d.fiber = none) :
    stopDaemon st name = (Except.ok (), st) := by
  simp only [stopDaemon, h, hf]

/-- Witness for C5: stopping a registered, never-started daemon. -/
theorem c5_witness : stopDaemon c1State1 "a" = (Except.ok (), c1State1) :=
  c5_thm c1State1 "a" ⟨"a", ["sleep", "10"], 0, none⟩ (by decide) rfl

/-- Claim C6: once a monitor's stop function has been invoked (`stopped` is
set), the monitor takes no further action on any subsequent trace of
child-exit, scheduled-restart, chunk, read-error or poll events: its state
never changes, no child is spawned, no restart is scheduled, and no event or
error callback path is taken — every handler checks the stopped flag.  The
only actions a further `stop` call repeats are the kill and timer-clear of
`stop` itself.  This holds for the network and the audio monitor. -/
theorem c6_thm (nst : NetMonState) (nevs : List NetMonEvent)
    (ast : AudioMonState) (aevs : List AudioMonEvent)
    (hn : nst.stopped = true) (ha : ast.stopped = true) :
    ((netRun nst nevs).1 = nst ∧
      ∀ a ∈ (netRun nst nevs).2,
        a = NetMonAction.killChild ∨ a = NetMonAction.clearPollTimer) ∧
    ((audioRun ast aevs).1 = ast ∧
      ∀ a ∈ (audioRun ast aevs).2, a = AudioMonAction.killChild) :=
  ⟨netRun_stopped nevs nst hn, audioRun_stopped aevs ast ha⟩

/-- Witness for C6 on concrete stopped monitors and concrete event traces. -/
theorem c6_witness :
    ((netRun ⟨true, [], none⟩
        [NetMonEvent.childExited, NetMonEvent.restartTimerFire,
          NetMonEvent.chunkArrive ("wlan0: connected".toList),
          NetMonEvent.pollTick, NetMonEvent.readLoopError]).1 = ⟨true, [], none⟩ ∧
      ∀ a ∈ (netRun ⟨true, [], none⟩
        [NetMonEvent.childExited, NetMonEvent.restartTimerFire,
          NetMonEvent.chunkArrive ("wlan0: connected".toList),
          NetMonEvent.pollTick, NetMonEvent.readLoopError]).2,
        a = NetMonAction.killChild ∨ a = NetMonAction.clearPollTimer) ∧
    ((audioRun ⟨true, []⟩
        [AudioMonEvent.childExited, AudioMonEvent.restartTimerFire,
          AudioMonEvent.readLoopError]).1 = ⟨true, []⟩ ∧
      ∀ a ∈ (audioRun ⟨true, []⟩
        [AudioMonEvent.childExited, AudioMonEvent.restartTimerFire,
          AudioMonEvent.readLoopError]).2, a = AudioMonAction.killChild) :=
  c6_thm ⟨true, [], none⟩ _ ⟨true, []⟩ _ rfl rfl

/-- Claim C7, counterexample: `Connectivity is now 'sometimes'` matches none
of the spec's four grammar productions (the spec restricts the level to
`full|limited|none`), yet `parseMonitorLine` does not return `null`: the code
pattern accepts any word-character level and returns a connectivity event. -/
theorem c7_cx :
    specNetworkGrammarB c7Line = false ∧
    parseMonitorLine c7Line = some (MonitorEvent.connectivity ("sometimes".toList)) := by
  decide

/-- Claim C7 (amended): `parseMonitorLine` maps `wlan0: connected`,
`wlan0: using connection 'My Network 5G'` and `Connectivity is now 'limited'`
to the claimed events, maps `NetworkManager is running` to `null`, and
returns `null` exactly on the lines matching none of the code's four
patterns — in which the connectivity production accepts any non-empty
word-character level, not only `full|limited|none`. -/
theorem c7_thm :
    parseMonitorLine ("wlan0: connected".toList) =
      some (MonitorEvent.connected ("wlan0".toList)) ∧
    parseMonitorLine exUsingLine =
      some (MonitorEvent.connecting ("wlan0".toList) ("My Network 5G".toList)) ∧
    parseMonitorLine exConnectivityLine =
      some (MonitorEvent.connectivity ("limited".toList)) ∧
    parseMonitorLine ("NetworkManager is running".toList) = none ∧
    ∀ line : List Char, connectedShapeB line = false → disconnectedShapeB line = false →
      connectingShapeB line = false → connectivityShapeB line = false →
      parseMonitorLine line = none := by
  refine ⟨by decide, by decide, by decide, by decide, ?_⟩
  intro line h1 h2 h3 h4
  by_contra hne
  rcases parseMonitorLine_shape hne with h | h | h | h <;> simp_all

/-- Witness for C7's universal part at a concrete unrecognized line. -/
theorem c7_witness : parseMonitorLine ("hello world".toList) = none :=
  c7_thm.2.2.2.2 ("hello world".toList) (by decide) (by decide) (by decide) (by decide)

/-- Claim C8, counterexample: `Event 'foo' on gadget #3` parses to a non-null
event although `foo` is not one of `new`, `change`, `remove` (and `gadget`
is not in the object list): the source casts the captures without validating
them, refuting the claim's \"exactly\". -/
theorem c8_cx :
    parseSubscribeLine c8CxLine = some ⟨"foo".toList, "gadget".toList, 3⟩ ∧
    "foo".toList ≠ "new".toList ∧ "foo".toList ≠ "change".toList ∧
    "foo".toList ≠ "remove".toList := by
  decide

/-- Claim C8 (amended): `parseSubscribeLine` returns a non-null event exactly
for lines of the shape `Event '<w>' on <wd> #<digits>` where `<w>` is any
non-empty word-character string and `<wd>` any non-empty word-or-hyphen
string — the action and object are not validated against the enumerated
lists; in particular `Event 'change' on sink #56` parses to
`{change, sink, 56}` and `Event 'change' on sink` to `null`. -/
theorem c8_thm :
    parseSubscribeLine c8ChangeSinkLine = some ⟨"change".toList, "sink".toList, 56⟩ ∧
    parseSubscribeLine c8MalformedLine = none ∧
    (∀ (line : List Char) (ev : AudioEvent), parseSubscribeLine line = some ev →
      ∃ a o ds, a ≠ [] ∧ (∀ c ∈ a, isWordChar c = true) ∧ o ≠ [] ∧
        (∀ c ∈ o, isWordDashChar c = true) ∧ ds ≠ [] ∧ (∀ c ∈ ds, isDigitChar c = true) ∧
        line = litEvent ++ (a ++ (litOn ++ (o ++ (litHash ++ ds)))) ∧
        ev = ⟨a, o, digitsToNat ds⟩) ∧
    (∀ a o ds : List Char, a ≠ [] → (∀ c ∈ a, isWordChar c = true) → o ≠ [] →
      (∀ c ∈ o, isWordDashChar c = true) → ds ≠ [] → (∀ c ∈ ds, isDigitChar c = true) →
      parseSubscribeLine (litEvent ++ (a ++ (litOn ++ (o ++ (litHash ++ ds))))) =
        some ⟨a, o, digitsToNat ds⟩) := by
  refine ⟨by decide, by decide, ?_, ?_⟩
  · intro line ev h
    exact parseSubscribeLine_eq_some_imp h
  · intro a o ds h1 h2 h3 h4 h5 h6
    exact parseSubscribeLine_complete h1 h2 h3 h4 h5 h6

/-- Witness for C8's completeness part at a concrete decomposition. -/
theorem c8_witness :
    parseSubscribeLine (litEvent ++ ("new".toList ++ (litOn ++
      ("card".toList ++ (litHash ++ "12".toList))))) =
      some ⟨"new".toList, "card".toList, digitsToNat ("12".toList)⟩ :=
  c8_thm.2.2.2 ("new".toList) ("card".toList) ("12".toList)
    (by decide) (by decide) (by decide) (by decide) (by decide) (by decide)

/-- Claim C9: whenever the fast-path source text has a line matching the
device's row pattern with captured link quality `q` (on the 0-70 scale),
`readWifiSignal` returns `roundPct q`, and `roundPct q` is exactly
`round(q / 70 * 100)` computed over the rationals. -/
theorem c9_thm (device text : List Char) (q : Nat)
    (h : (splitOnNl text).findSome? (lineQuality device) = some q) (_hq : q ≤ 70) :
    readWifiSignal device text = some (roundPct q) ∧
    (roundPct q : ℤ) = round ((q : ℚ) * 100 / 70) := by
  constructor
  · rw [readWifiSignal, h]
    rfl
  · exact roundPct_eq_round q

/-- Witness for C9: quality 32 yields 46. -/
theorem c9_witness :
    readWifiSignal ("wlan0".toList) c9Text = some 46 ∧
    ((46 : ℕ) : ℤ) = round ((32 : ℚ) * 100 / 70) :=
  c9_thm ("wlan0".toList) c9Text 32 (by decide) (by decide)

/-- Claim C10, counterexample: the line
`w: using connection 'x: using connection 's'` has the form
`<device>: using connection '<ssid>'` for the device `w: using connection 'x`,
which contains characters outside `[A-Za-z0-9_]`, yet `parseMonitorLine`
does not return `null` — the line re-parses as a connecting event with the
shorter device `w`. -/
theorem c10_cx :
    parseMonitorLine (c10Device ++ (litUsing ++ ("s".toList ++ [quoteC]))) =
      some (MonitorEvent.connecting ("w".toList)
        ("x: using connection ".toList ++ [quoteC] ++ "s".toList)) ∧
    (∃ c ∈ c10Device, isWordChar c = false) := by
  decide

/-- Claim C10 (amended): for every device containing a character outside
`[A-Za-z0-9_]`, the lines `<device>: connected` and `<device>: disconnected`
parse to `null`; the line `<device>: using connection '<ssid>'` also parses
to `null` provided the device contains no colon (a device embedding
`: using connection '` makes the line re-parse with a shorter device, as the
counterexample shows). -/
theorem c10_thm (d s : List Char) (c0 : Char)
    (hmem : c0 ∈ d) (hnw : isWordChar c0 = false) :
    parseMonitorLine (d ++ litConnected) = none ∧
    parseMonitorLine (d ++ litDisconnected) = none ∧
    ((∀ c ∈ d, c ≠ ':') →
      parseMonitorLine (d ++ (litUsing ++ (s ++ [quoteC]))) = none) :=
  ⟨parse_connected_none_of_nonword hmem hnw,
   parse_disconnected_none_of_nonword hmem hnw,
   fun hcol => parse_using_none_of_nonword_nocolon hmem hnw hcol⟩

/-- Witness for C10 at the hyphenated device `br-lan`. -/
theorem c10_witness :
    parseMonitorLine ("br-lan".toList ++ litConnected) = none ∧
    parseMonitorLine ("br-lan".toList ++ litDisconnected) = none ∧
    parseMonitorLine ("br-lan".toList ++ (litUsing ++ ("x".toList ++ [quoteC]))) = none :=
  ⟨(c10_thm ("br-lan".toList) ("x".toList) '-' (by decide) (by decide)).1,
   (c10_thm ("br-lan".toList) ("x".toList) '-' (by decide) (by decide)).2.1,
   (c10_thm ("br-lan".toList) ("x".toList) '-' (by decide) (by decide)).2.2 (by decide)⟩
